import Mathlib

/-!
# Todo service (`src/server.js`): request handlers over a document store

A shallow embedding of the four route handlers of `server.js`
(`GET /api/todos`, `POST /api/todos`, `PUT /api/todos/:id`,
`DELETE /api/todos/:id`) and of the document store they talk to.

* A handler is a value of `Handler`: either an immediate response, or one
  store call together with the continuation that shapes the store's answer
  into the response (the `try { await ... } catch { 500 }` of the source).
* `app` is the application: the JSON body parser of server.js:12, whose
  outcome is part of the incoming request, followed by the route handler.
* The store is the external collaborator; `Store` with `Store.create`,
  `Store.find`, `Store.findByIdAndUpdate`, `Store.findByIdAndDelete` is its
  model, typed by `todoSchema` (server.js:28-32).
* `nowIso()` is a parameter `now : String` of the handlers that read the clock.
-/

namespace TodoService

/-! ## JavaScript values of a parsed JSON body -/

/-- A value read from a parsed JSON request body: `undefined` stands for an
absent key. A number is given by the string JavaScript prints it as
(`String(n)`, e.g. "5", "0.5", "1e+21"); both zeros print as "0", and that
is all the handlers and the store look at in a number. -/
inductive JsVal where
  | undefined
  | null
  | bool (b : Bool)
  | num (text : String)
  | str (s : String)
  | arr (items : List JsVal)
  | obj (fields : List (String × JsVal))

namespace JsVal

/-- JavaScript truthiness, `Boolean(v)` and the test of `!v` and `v || w`. -/
def toBoolean : JsVal → Bool
  | undefined => false
  | null => false
  | bool b => b
  | num text => text != "0"
  | str s => s != ""
  | arr _ => true
  | obj _ => true

/-- The test `typeof v === 'string'`. -/
def isString : JsVal → Bool
  | str _ => true
  | _ => false

/-- The test `typeof v !== 'undefined'`. -/
def isDefined : JsVal → Bool
  | undefined => false
  | _ => true

/-- The expression `v || w`. -/
def orElse (v w : JsVal) : JsVal :=
  if v.toBoolean then v else w

end JsVal

/-- White space and line terminators of ECMAScript, the characters that
`String.prototype.trim` strips. -/
def isJsWhitespace (c : Char) : Bool :=
  let n := c.toNat
  n == 0x09 || n == 0x0A || n == 0x0B || n == 0x0C || n == 0x0D || n == 0x20 ||
  n == 0xA0 || n == 0x1680 || (0x2000 ≤ n && n ≤ 0x200A) || n == 0x2028 ||
  n == 0x2029 || n == 0x202F || n == 0x205F || n == 0x3000 || n == 0xFEFF

/-- Trim on a list of characters: drop the leading and the trailing white space. -/
def trimChars (cs : List Char) : List Char :=
  ((cs.dropWhile isJsWhitespace).reverse.dropWhile isJsWhitespace).reverse

/-- JavaScript `s.trim()`. -/
def jsTrim (s : String) : String :=
  String.mk (trimChars s.data)

/-! ## Requests, responses, documents -/

/-- The three keys the handlers destructure from `req.body || {}`. -/
structure ReqBody where
  title : JsVal := JsVal.undefined
  completed : JsVal := JsVal.undefined
  updatedAt : JsVal := JsVal.undefined

/-- The expression `req.body || {}`: an absent body reads as the empty object. -/
def bodyOrEmpty (body : Option ReqBody) : ReqBody :=
  body.getD {}

/-- The store's identifier type (`_id`, the default ObjectId): a 96-bit value,
written as 24 hexadecimal digits. -/
abbrev ObjectId := Fin (16 ^ 24)

/-- A stored document of the `Todo` model (server.js:28-32). -/
structure Doc where
  _id : ObjectId
  title : String
  completed : Bool
  updatedAt : String
deriving DecidableEq, Repr

/-- The Todo object of a response: `{ id, title, completed, updatedAt }`. -/
structure TodoJson where
  id : ObjectId
  title : String
  completed : Bool
  updatedAt : String
deriving DecidableEq, Repr

/-- The body of a response: nothing, the HTML page of the framework's default
error handler, the JSON object `{ error: message }`, one Todo, or an array of
Todos. -/
inductive ResBody where
  | empty
  | html
  | error (message : String)
  | todo (t : TodoJson)
  | todos (ts : List TodoJson)
deriving DecidableEq, Repr

/-- An HTTP response: status code and body. -/
structure Response where
  status : Nat
  body : ResBody
deriving DecidableEq, Repr

/-- The object literal `{ id: doc._id, title: doc.title, completed: doc.completed,
updatedAt: doc.updatedAt }` (server.js:59, 77) and the map
`({ _id, ...rest }) => ({ id: _id, ...rest })` (server.js:41). -/
def toJson (d : Doc) : TodoJson :=
  { id := d._id, title := d.title, completed := d.completed, updatedAt := d.updatedAt }

/-- The document passed to `Todo.create` (server.js:54-58). -/
structure CreateFields where
  title : String
  completed : Bool
  updatedAt : JsVal

/-- The sparse object `updates` passed to `Todo.findByIdAndUpdate`
(server.js:70-74): the keys `title` and `completed` are present exactly when
the field is `some`, the key `updatedAt` is always present. -/
structure Updates where
  title : Option String
  completed : Option Bool
  updatedAt : JsVal

/-- The keys of the object `updates`, in the order they are written. -/
def Updates.keys (u : Updates) : List String :=
  (if u.title.isSome then ["title"] else []) ++
  (if u.completed.isSome then ["completed"] else []) ++ ["updatedAt"]

/-- The argument `{ path: direction }` of `sort` on a find-all query: direction
`1` asks for ascending and `-1` for descending order of the field at `path`. -/
structure SortSpec where
  path : String
  direction : Int
deriving DecidableEq, Repr

/-- An error thrown by a store call; the handlers catch every one alike. -/
inductive StoreError where
  | castError
  | validationError
  | unavailable
deriving DecidableEq, Repr

/-- A store call as a handler issues it. -/
inductive StoreCall where
  | find (sort : SortSpec)
  | create (fields : CreateFields)
  | findByIdAndUpdate (id : String) (updates : Updates)
  | findByIdAndDelete (id : String)

/-- A handler run: an immediate response, or one awaited store call with the
continuation that turns the store's answer (or its thrown error) into the
response. -/
inductive Handler where
  | respond (r : Response)
  | find (sort : SortSpec) (k : Except StoreError (List Doc) → Response)
  | create (fields : CreateFields) (k : Except StoreError Doc → Response)
  | findByIdAndUpdate (id : String) (updates : Updates)
      (k : Except StoreError (Option Doc) → Response)
  | findByIdAndDelete (id : String) (k : Except StoreError (Option Doc) → Response)

/-- The store calls a handler run performs. -/
def Handler.storeCalls : Handler → List StoreCall
  | .respond _ => []
  | .find sort _ => [StoreCall.find sort]
  | .create f _ => [StoreCall.create f]
  | .findByIdAndUpdate id u _ => [StoreCall.findByIdAndUpdate id u]
  | .findByIdAndDelete id _ => [StoreCall.findByIdAndDelete id]

/-- The response a handler run sends without calling the store, if it does so. -/
def Handler.immediate : Handler → Option Response
  | .respond r => some r
  | _ => none

/-- The response `res.status(500).json({ error: 'server_error' })` of every
`catch` block. -/
def serverError : Response :=
  { status := 500, body := ResBody.error "server_error" }

/-! ## The four route handlers -/

/-- `GET /api/todos` (server.js:37-45): the query is
`Todo.find({}).sort({ updatedAt: -1 }).lean()`. -/
def getTodos : Handler :=
  Handler.find { path := "updatedAt", direction := -1 } fun r =>
    match r with
    | .ok list => { status := 200, body := ResBody.todos (list.map toJson) }
    | .error _ => serverError

/-- `POST /api/todos` (server.js:48-63). -/
def postTodo (body : Option ReqBody) (now : String) : Handler :=
  let b := bodyOrEmpty body
  if !b.title.toBoolean || !b.title.isString then
    Handler.respond { status := 400, body := ResBody.error "title is required" }
  else
    match b.title with
    | .str title =>
      Handler.create
        { title := jsTrim title
          completed := b.completed.toBoolean
          updatedAt := b.updatedAt.orElse (JsVal.str now) }
        fun r =>
          match r with
          | .ok doc => { status := 201, body := ResBody.todo (toJson doc) }
          | .error _ => serverError
    | _ => Handler.respond serverError

/-- The object `updates` of `PUT /api/todos/:id` (server.js:70-74). -/
def putUpdates (b : ReqBody) (now : String) : Updates :=
  { title := match b.title with
      | .str title => some (jsTrim title)
      | _ => none
    completed := if b.completed.isDefined then some b.completed.toBoolean else none
    updatedAt := b.updatedAt.orElse (JsVal.str now) }

/-- `PUT /api/todos/:id` (server.js:66-82). -/
def putTodo (id : String) (body : Option ReqBody) (now : String) : Handler :=
  let b := bodyOrEmpty body
  Handler.findByIdAndUpdate id (putUpdates b now) fun r =>
    match r with
    | .ok (some doc) => { status := 200, body := ResBody.todo (toJson doc) }
    | .ok none => { status := 404, body := ResBody.error "not found" }
    | .error _ => serverError

/-- `DELETE /api/todos/:id` (server.js:85-97). -/
def deleteTodo (id : String) : Handler :=
  Handler.findByIdAndDelete id fun r =>
    match r with
    | .ok (some _) => { status := 204, body := ResBody.empty }
    | .ok none => { status := 404, body := ResBody.error "not found" }
    | .error _ => serverError

/-! ## The document store

The store is the external collaborator reached through the Mongoose model
`Todo` (server.js:28-34). Its model below keeps the documents in insertion
order, hands out fresh identifiers, and casts what it is given to the types
of `todoSchema`: `title : String, required`, `completed : Boolean`,
`updatedAt : String, required`, `_id` the default ObjectId. -/

/-- The store's cast of a value to the schema type String (the type of
`updatedAt`, server.js:31); the cast is the store library's and is not under
src/. A string is kept; a number and a boolean are printed (`toString()`);
an object that carries a non-empty string under `_id` stands for that string;
an array or any other object is not a string: the cast fails. The handlers
never send `null` or `undefined` here (`updatedAt || nowIso()` is truthy);
the model reports them as not castable. -/
def castString : JsVal → Option String
  | .str s => some s
  | .num text => some text
  | .bool b => some (if b then "true" else "false")
  | .obj fields =>
    match fields.lookup "_id" with
    | some (.str s) => if s != "" then some s else none
    | _ => none
  | _ => none

/-- The value of a hexadecimal digit. -/
def hexDigit (c : Char) : Option Nat :=
  if '0' ≤ c ∧ c ≤ '9' then some (c.toNat - '0'.toNat)
  else if 'a' ≤ c ∧ c ≤ 'f' then some (c.toNat - 'a'.toNat + 10)
  else if 'A' ≤ c ∧ c ≤ 'F' then some (c.toNat - 'A'.toNat + 10)
  else none

/-- The number written by a list of hexadecimal digits, after the digits
already read with value `acc`. -/
def parseHex (acc : Nat) : List Char → Option Nat
  | [] => some acc
  | c :: cs =>
    match hexDigit c with
    | some v => parseHex (16 * acc + v) cs
    | none => none

/-- The store's cast of the path parameter `id` to its identifier type; the
cast is the store library's and is not under src/. The identifier is the
default ObjectId (server.js:27): a well-formed identifier is a string of
exactly 24 hexadecimal digits, and any other string fails the cast. -/
def castObjectId (id : String) : Option ObjectId :=
  if id.length = 24 then
    match parseHex 0 id.data with
    | some n => if h : n < 16 ^ 24 then some ⟨n, h⟩ else none
    | none => none
  else none

/-- The hexadecimal digit of a value below 16. -/
def hexChar (v : Nat) : Char :=
  if v < 10 then Char.ofNat ('0'.toNat + v) else Char.ofNat ('a'.toNat + (v - 10))

/-- The string an identifier is rendered as in a JSON response: its 24
hexadecimal digits. -/
def ObjectId.toHexString (oid : ObjectId) : String :=
  String.mk ((List.range 24).map fun i => hexChar (oid.val / 16 ^ (23 - i) % 16))

/-- Modelled from the spec: the state of the external document store, which is
not under src/: the stored documents in insertion order and the next
identifier the store will assign. -/
structure Store where
  docs : List Doc
  nextId : Nat
deriving DecidableEq, Repr

namespace Store

/-- The store that holds no document. -/
def empty : Store :=
  { docs := [], nextId := 0 }

/-- The identifiers of the stored documents. -/
def ids (s : Store) : List ObjectId :=
  s.docs.map Doc._id

/-- The stored document with identifier `oid`, if there is one. -/
def findById (s : Store) (oid : ObjectId) : Option Doc :=
  s.docs.find? fun d => d._id == oid

/-- The store invariant "exactly one persisted record per id; an id is never
reused": identifiers are pairwise distinct and were all assigned already. -/
def WF (s : Store) : Prop :=
  s.ids.Nodup ∧ ∀ oid ∈ s.ids, oid.val < s.nextId

/-- The order of the values stored at a schema path: `a` is not greater than
`b` there. Strings are ordered character by character, `false` before
`true`, identifiers by value; documents do not differ at an unknown path. -/
def fieldLe (path : String) (a b : Doc) : Bool :=
  if path = "updatedAt" then decide (a.updatedAt.data ≤ b.updatedAt.data)
  else if path = "title" then decide (a.title.data ≤ b.title.data)
  else if path = "completed" then decide (a.completed ≤ b.completed)
  else if path = "_id" then decide (a._id ≤ b._id)
  else true

/-- The order a sort argument asks for: `a` may stand before `b`. A negative
direction reverses the order of the field. -/
def sortBefore (sort : SortSpec) (a b : Doc) : Prop :=
  if sort.direction < 0 then fieldLe sort.path b a = true else fieldLe sort.path a b = true

instance (sort : SortSpec) : DecidableRel (sortBefore sort) :=
  fun a b => by unfold sortBefore; exact inferInstance

/-- Modelled from the spec: find-all with a stable sort, the store's part of
`Todo.find({}).sort(sort).lean()`: every document, in the order the sort
argument asks for; a direction other than `1` and `-1` is refused. -/
def find (s : Store) (sort : SortSpec) : Except StoreError (List Doc) :=
  if sort.direction = 1 ∨ sort.direction = -1 then
    .ok (s.docs.insertionSort (sortBefore sort))
  else .error StoreError.castError

/-- Modelled from the spec: `Todo.create(fields)`: cast and validate the fields
by the schema (both required strings must be non-empty), then persist a new
document under a fresh identifier and return it. Identifiers are assigned
from a counter; a store that has used up its 96-bit identifiers fails. -/
def create (s : Store) (f : CreateFields) : Except StoreError Doc × Store :=
  match castString f.updatedAt with
  | none => (.error StoreError.validationError, s)
  | some t =>
    if f.title = "" ∨ t = "" then (.error StoreError.validationError, s)
    else if h : s.nextId < 16 ^ 24 then
      let d : Doc :=
        { _id := ⟨s.nextId, h⟩, title := f.title, completed := f.completed, updatedAt := t }
      (.ok d, { docs := s.docs ++ [d], nextId := s.nextId + 1 })
    else (.error StoreError.unavailable, s)

/-- The merge of a cast field set into a document: a supplied field replaces
the stored one, an absent field keeps it. -/
def applyUpdates (title : Option String) (completed : Option Bool) (t : String) (d : Doc) : Doc :=
  { d with title := title.getD d.title, completed := completed.getD d.completed, updatedAt := t }

/-- Replace the first document with identifier `oid` by its image under `f`;
the result is the new document and the new list, or `none` when no document
has that identifier. -/
def updateFirst (oid : ObjectId) (f : Doc → Doc) : List Doc → Option (Doc × List Doc)
  | [] => none
  | d :: ds =>
    if d._id = oid then some (f d, f d :: ds)
    else
      match updateFirst oid f ds with
      | some (r, ds') => some (r, d :: ds')
      | none => none

/-- Remove the first document with identifier `oid`; the result is the removed
document and the remaining list, or `none` when no document has that
identifier. -/
def removeFirst (oid : ObjectId) : List Doc → Option (Doc × List Doc)
  | [] => none
  | d :: ds =>
    if d._id = oid then some (d, ds)
    else
      match removeFirst oid ds with
      | some (r, ds') => some (r, d :: ds')
      | none => none

/-- Modelled from the spec: `Todo.findByIdAndUpdate(id, updates, { new: true })`:
cast the identifier and the field set (a failure is thrown), then merge the
field set into the matching document and return the document after the
update, or return nothing when no document matches (nothing is created).
No validator runs on an update. -/
def findByIdAndUpdate (s : Store) (id : String) (u : Updates) :
    Except StoreError (Option Doc) × Store :=
  match castObjectId id with
  | none => (.error StoreError.castError, s)
  | some oid =>
    match castString u.updatedAt with
    | none => (.error StoreError.castError, s)
    | some t =>
      match updateFirst oid (applyUpdates u.title u.completed t) s.docs with
      | none => (.ok none, s)
      | some (d, ds) => (.ok (some d), { s with docs := ds })

/-- Modelled from the spec: `Todo.findByIdAndDelete(id)`: cast the identifier
(a failure is thrown), then remove the matching document and return it, or
return nothing when no document matches. -/
def findByIdAndDelete (s : Store) (id : String) : Except StoreError (Option Doc) × Store :=
  match castObjectId id with
  | none => (.error StoreError.castError, s)
  | some oid =>
    match removeFirst oid s.docs with
    | none => (.ok none, s)
    | some (d, ds) => (.ok (some d), { s with docs := ds })

end Store

/-- Run a handler against the store: perform its store call, if any, and shape
the answer into the response. -/
def Handler.run (h : Handler) (s : Store) : Response × Store :=
  match h with
  | .respond r => (r, s)
  | .find sort k => (k (s.find sort), s)
  | .create f k => let (r, s') := s.create f; (k r, s')
  | .findByIdAndUpdate id u k => let (r, s') := s.findByIdAndUpdate id u; (k r, s')
  | .findByIdAndDelete id k => let (r, s') := s.findByIdAndDelete id; (k r, s')

/-- A write request to the service. -/
inductive WriteOp where
  | create (body : Option ReqBody)
  | update (id : String) (body : Option ReqBody)

/-- The handler run of a write request read at clock time `now`. -/
def WriteOp.handler (op : WriteOp) (now : String) : Handler :=
  match op with
  | .create body => postTodo body now
  | .update id body => putTodo id body now

/-- The title a store call carries, if it carries one. -/
def StoreCall.sentTitle : StoreCall → Option String
  | .create f => some f.title
  | .findByIdAndUpdate _ u => u.title
  | _ => none

/-- The `updatedAt` value a store call carries, if it carries one. -/
def StoreCall.sentUpdatedAt : StoreCall → Option JsVal
  | .create f => some f.updatedAt
  | .findByIdAndUpdate _ u => some u.updatedAt
  | _ => none

/-- Timestamp order: the order of the ISO-8601 strings, character by character. -/
def tsLe (a b : String) : Prop :=
  a.data ≤ b.data

instance : DecidableRel tsLe :=
  fun a b => inferInstanceAs (Decidable (a.data ≤ b.data))

/-- The store states reachable from the empty store through create and update
requests served under a non-decreasing clock; the second index is the clock
reading of the last request served. -/
inductive Reachable : Store → String → Prop where
  | init (t : String) : Reachable Store.empty t
  | step (s : Store) (t now : String) (op : WriteOp) :
      Reachable s t → tsLe t now → Reachable ((op.handler now).run s).2 now

/-- The reachable store states in whose history no request wrote an `updatedAt`
later than the clock reading at which it was served. -/
inductive ReachableOnClock : Store → String → Prop where
  | init (t : String) : ReachableOnClock Store.empty t
  | step (s : Store) (t now : String) (op : WriteOp) :
      ReachableOnClock s t → tsLe t now →
      (∀ call ∈ (op.handler now).storeCalls, ∀ v u,
        call.sentUpdatedAt = some v → castString v = some u → tsLe u now) →
      ReachableOnClock ((op.handler now).run s).2 now

/-- A request that reached a route handler: one of the four operations, with
the body as the JSON body parser left it in `req.body`. -/
inductive Request where
  | list
  | create (body : Option ReqBody)
  | update (id : String) (body : Option ReqBody)
  | delete (id : String)

/-- The handler run of a request read at clock time `now`. -/
def Request.handler (req : Request) (now : String) : Handler :=
  match req with
  | .list => getTodos
  | .create body => postTodo body now
  | .update id body => putTodo id body now
  | .delete id => deleteTodo id

/-- The four routes of the service. -/
inductive Route where
  | list
  | create
  | update (id : String)
  | delete (id : String)

/-- An incoming request after the JSON body parser `express.json()`
(server.js:12), which runs before every route: either the parser accepted
the body and the route handler runs on it, or the parser raised an error
with an HTTP status (400 for malformed JSON, 413 for a body over the size
limit) and no route handler runs. -/
inductive Incoming where
  | parsed (req : Request)
  | rejected (route : Route) (status : Nat)

/-- The application (server.js:8-12, 37-97): the body parser, then the route
handler. The source installs no error-handling middleware, so a parser error
is answered by the framework's default error handler: the error's status
when that is an error status (400 to 599), else 500, and an HTML page. -/
def app (inc : Incoming) (now : String) : Handler :=
  match inc with
  | .parsed req => req.handler now
  | .rejected _ status =>
    Handler.respond
      { status := if 400 ≤ status ∧ status < 600 then status else 500, body := ResBody.html }

/-- The responses a handler run can send: its immediate response, or what its
continuation makes of some answer of the store. -/
def Handler.canRespond (h : Handler) (r : Response) : Prop :=
  match h with
  | .respond r0 => r = r0
  | .find _ k => ∃ a, r = k a
  | .create _ k => ∃ a, r = k a
  | .findByIdAndUpdate _ _ k => ∃ a, r = k a
  | .findByIdAndDelete _ k => ∃ a, r = k a

/-- The response a handler run sends when its store call throws `e`; `none`
when the run makes no store call. -/
def Handler.onStoreError (h : Handler) (e : StoreError) : Option Response :=
  match h with
  | .respond _ => none
  | .find _ k => some (k (.error e))
  | .create _ k => some (k (.error e))
  | .findByIdAndUpdate _ _ k => some (k (.error e))
  | .findByIdAndDelete _ k => some (k (.error e))

/-- A success response: status 200, 201 or 204 and a body that is no error
object. -/
def Response.isSuccess (r : Response) : Prop :=
  (r.status = 200 ∨ r.status = 201 ∨ r.status = 204) ∧ ∀ m, r.body ≠ ResBody.error m

/-- A failure response of the error contract: status 400, 404 or 500 and a
body `{ error: m }` with `m` one of the three messages. -/
def Response.isFailure (r : Response) : Prop :=
  (r.status = 400 ∨ r.status = 404 ∨ r.status = 500) ∧
  ∃ m, r.body = ResBody.error m ∧
    (m = "server_error" ∨ m = "title is required" ∨ m = "not found")

/-- The `updatedAt` of a write as the specification words it: "the supplied
updatedAt, or the current time when none is supplied". -/
def specUpdatedAt (b : ReqBody) (now : String) : JsVal :=
  if b.updatedAt.isDefined then b.updatedAt else JsVal.str now

/-! ## Basic facts about values and trimming -/

theorem JsVal.toBoolean_str (s : String) : (JsVal.str s).toBoolean = true ↔ s ≠ "" := by
  simp [JsVal.toBoolean]

theorem JsVal.isString_iff (v : JsVal) : v.isString = true ↔ ∃ s, v = JsVal.str s := by
  cases v <;> simp [JsVal.isString]

theorem JsVal.isDefined_iff (v : JsVal) : v.isDefined = true ↔ v ≠ JsVal.undefined := by
  cases v <;> simp [JsVal.isDefined]

theorem dropWhile_both_ends (p : Char → Bool) (cs : List Char) :
    ∃ pre post, cs = pre ++ ((cs.dropWhile p).reverse.dropWhile p).reverse ++ post ∧
      (∀ c ∈ pre, p c = true) ∧ (∀ c ∈ post, p c = true) ∧
      (∀ c, (((cs.dropWhile p).reverse.dropWhile p).reverse).head? = some c → p c = false) ∧
      (∀ c, (((cs.dropWhile p).reverse.dropWhile p).reverse).getLast? = some c → p c = false) := by
  have hA : (cs.dropWhile p) =
      ((cs.dropWhile p).reverse.dropWhile p).reverse ++
        ((cs.dropWhile p).reverse.takeWhile p).reverse := by
    have h := List.takeWhile_append_dropWhile p (cs.dropWhile p).reverse
    have h2 := congrArg List.reverse h
    rw [List.reverse_append, List.reverse_reverse] at h2
    exact h2.symm
  have hlast : ∀ c, (((cs.dropWhile p).reverse.dropWhile p).reverse).getLast? = some c →
      p c = false := by
    intro c hc
    rw [List.getLast?_reverse] at hc
    have := List.head?_dropWhile_not p (cs.dropWhile p).reverse
    rw [hc] at this
    simpa using this
  refine ⟨cs.takeWhile p, ((cs.dropWhile p).reverse.takeWhile p).reverse, ?_, ?_, ?_, ?_, hlast⟩
  · rw [List.append_assoc, ← hA, List.takeWhile_append_dropWhile]
  · intro c hc
    exact (List.mem_takeWhile_imp hc)
  · intro c hc
    exact List.mem_takeWhile_imp (List.mem_reverse.1 hc)
  · intro c hc
    have hne : ((cs.dropWhile p).reverse.dropWhile p).reverse ≠ [] := by
      intro e; rw [e] at hc; simp at hc
    have hh : (cs.dropWhile p).head? = some c := by
      rw [hA, List.head?_append_of_ne_nil _ hne]
      exact hc
    have := List.head?_dropWhile_not p cs
    rw [hh] at this
    simpa using this

/-- Trimming removes white space only, and only at the two ends: the input is
the trimmed string between two runs of white space, and the trimmed string
neither starts nor ends with white space. -/
theorem trimChars_spec (cs : List Char) :
    ∃ pre post, cs = pre ++ trimChars cs ++ post ∧
      (∀ c ∈ pre, isJsWhitespace c = true) ∧ (∀ c ∈ post, isJsWhitespace c = true) ∧
      (∀ c, (trimChars cs).head? = some c → isJsWhitespace c = false) ∧
      (∀ c, (trimChars cs).getLast? = some c → isJsWhitespace c = false) :=
  dropWhile_both_ends isJsWhitespace cs

/-! ## Create validation -/

/-- C1: `POST /api/todos` answers 400 `{error: "title is required"}` without
any store call exactly when the body's title is absent, is not a string, or is
the empty string; in every other case the run makes exactly one store call,
a create. -/
theorem C1_create_validation (body : Option ReqBody) (now : String) :
    (((postTodo body now).immediate =
          some { status := 400, body := ResBody.error "title is required" } ∧
        (postTodo body now).storeCalls = []) ↔
      ((bodyOrEmpty body).title = JsVal.undefined ∨
        (bodyOrEmpty body).title.isString = false ∨
        (bodyOrEmpty body).title = JsVal.str "")) ∧
    ((∃ f, (postTodo body now).storeCalls = [StoreCall.create f]) ↔
      ¬((bodyOrEmpty body).title = JsVal.undefined ∨
        (bodyOrEmpty body).title.isString = false ∨
        (bodyOrEmpty body).title = JsVal.str "")) := by
  unfold postTodo
  generalize bodyOrEmpty body = b
  obtain ⟨title, completed, updatedAt⟩ := b
  cases title with
  | str s =>
    by_cases hs : s = ""
    · subst hs
      simp [JsVal.toBoolean, JsVal.isString, Handler.immediate, Handler.storeCalls]
    · simp [JsVal.toBoolean, JsVal.isString, Handler.immediate, Handler.storeCalls, hs]
  | _ => simp [JsVal.toBoolean, JsVal.isString, Handler.immediate, Handler.storeCalls]

/-! ## Titles that reach the store -/

/-- C2: a title of blanks passes the create guard and is sent to the store
trimmed to the empty string; an update sends the empty string for it as well,
and since an update is not validated by the store, a reachable store state
holds a record whose title is empty. -/
theorem C2_blank_title_reaches_store :
    (postTodo (some { title := JsVal.str "   " }) "2024-01-01T00:00:00.000Z").storeCalls.map
        StoreCall.sentTitle = [some ""] ∧
    (putTodo "000000000000000000000000" (some { title := JsVal.str "   " })
        "2024-01-02T00:00:00.000Z").storeCalls.map StoreCall.sentTitle = [some ""] ∧
    Reachable
      { docs := [{ _id := 0, title := "", completed := false,
                   updatedAt := "2024-01-02T00:00:00.000Z" }], nextId := 1 }
      "2024-01-02T00:00:00.000Z" := by
  refine ⟨by decide, by decide, ?_⟩
  exact Reachable.step _ "2024-01-01T00:00:00.000Z" "2024-01-02T00:00:00.000Z"
    (WriteOp.update "000000000000000000000000" (some { title := JsVal.str "   " }))
    (Reachable.step _ "2024-01-01T00:00:00.000Z" "2024-01-01T00:00:00.000Z"
      (WriteOp.create (some { title := JsVal.str "buy milk" }))
      (Reachable.init _) (by decide)) (by decide)

/-! ## The sparse field set of an update -/

theorem putTodo_eq (id : String) (body : Option ReqBody) (now : String) :
    ∃ k, putTodo id body now =
        Handler.findByIdAndUpdate id (putUpdates (bodyOrEmpty body) now) k ∧
      (∀ d, k (.ok (some d)) = { status := 200, body := ResBody.todo (toJson d) }) ∧
      k (.ok none) = { status := 404, body := ResBody.error "not found" } ∧
      ∀ e, k (.error e) = serverError :=
  ⟨_, rfl, fun _ => rfl, rfl, fun _ => rfl⟩

/-- C3, as stated, fails: an update that supplies the empty string as
`updatedAt` does not write the supplied value but the current time. -/
theorem C3_counterexample :
    (putUpdates { updatedAt := JsVal.str "" } "2024-01-01T00:00:00.000Z").updatedAt ≠
      specUpdatedAt { updatedAt := JsVal.str "" } "2024-01-01T00:00:00.000Z" := by
  simp [putUpdates, specUpdatedAt, JsVal.orElse, JsVal.toBoolean, JsVal.isDefined]

/-- C3, amended: the field set `PUT /api/todos/{id}` passes to the store's
find-by-id-and-update has the key `title` exactly when the body's title is a
string (value: the title trimmed), the key `completed` exactly when the
body's completed is defined (value: its boolean coercion), always the key
`updatedAt` (value: the supplied updatedAt when it is truthy, the current
time otherwise), and no other key. -/
theorem C3_update_field_set (id : String) (body : Option ReqBody) (now : String) :
    (putTodo id body now).storeCalls =
        [StoreCall.findByIdAndUpdate id (putUpdates (bodyOrEmpty body) now)] ∧
    (("title" ∈ (putUpdates (bodyOrEmpty body) now).keys ↔
        (bodyOrEmpty body).title.isString = true) ∧
      ∀ t, (putUpdates (bodyOrEmpty body) now).title = some t ↔
        ∃ s, (bodyOrEmpty body).title = JsVal.str s ∧ t = jsTrim s) ∧
    (("completed" ∈ (putUpdates (bodyOrEmpty body) now).keys ↔
        (bodyOrEmpty body).completed.isDefined = true) ∧
      ∀ c, (putUpdates (bodyOrEmpty body) now).completed = some c ↔
        ((bodyOrEmpty body).completed.isDefined = true ∧
          c = (bodyOrEmpty body).completed.toBoolean)) ∧
    ("updatedAt" ∈ (putUpdates (bodyOrEmpty body) now).keys ∧
      (putUpdates (bodyOrEmpty body) now).updatedAt =
        if (bodyOrEmpty body).updatedAt.toBoolean then (bodyOrEmpty body).updatedAt
        else JsVal.str now) ∧
    ∀ key ∈ (putUpdates (bodyOrEmpty body) now).keys,
      key = "title" ∨ key = "completed" ∨ key = "updatedAt" := by
  refine ⟨rfl, ?_⟩
  generalize bodyOrEmpty body = b
  obtain ⟨title, completed, updatedAt⟩ := b
  refine ⟨⟨?_, ?_⟩, ⟨?_, ?_⟩, ⟨?_, rfl⟩, ?_⟩
  · cases title <;> simp [putUpdates, Updates.keys, JsVal.isString]
  · intro t
    cases title <;> simp [putUpdates]
    exact eq_comm
  · cases completed <;> simp [putUpdates, Updates.keys, JsVal.isDefined]
  · intro c
    cases completed <;> simp [putUpdates, JsVal.isDefined] <;> exact eq_comm
  · simp [Updates.keys]
  · intro key hkey
    simp only [Updates.keys, List.mem_append, List.mem_singleton] at hkey
    rcases hkey with (h | h) | h
    · split at h
      · exact Or.inl (by simpa using h)
      · simp at h
    · split at h
      · exact Or.inr (Or.inl (by simpa using h))
      · simp at h
    · exact Or.inr (Or.inr h)

/-! ## Identifiers and their rendering -/

theorem hexDigit_hexChar (v : Nat) (h : v < 16) : hexDigit (hexChar v) = some v := by
  interval_cases v <;> decide

theorem parseHex_append (acc : Nat) (l : List Char) (c : Char) (a v : Nat)
    (hl : parseHex acc l = some a) (hc : hexDigit c = some v) :
    parseHex acc (l ++ [c]) = some (16 * a + v) := by
  induction l generalizing acc with
  | nil =>
    simp only [parseHex, Option.some.injEq] at hl
    simp [parseHex, hc, hl]
  | cons x xs ih =>
    simp only [parseHex, List.cons_append] at hl ⊢
    cases hx : hexDigit x with
    | none => simp [hx] at hl
    | some w =>
      simp only [hx] at hl ⊢
      exact ih _ hl

theorem parseHex_digits (k n : Nat) :
    parseHex 0 ((List.range k).map fun i => hexChar (n / 16 ^ (k - 1 - i) % 16)) =
      some (n % 16 ^ k) := by
  induction k generalizing n with
  | zero => simp [parseHex, Nat.mod_one]
  | succ k ih =>
    rw [List.range_succ, List.map_append, List.map_singleton]
    have hpre : ((List.range k).map fun i => hexChar (n / 16 ^ (k + 1 - 1 - i) % 16)) =
        (List.range k).map fun i => hexChar (n / 16 / 16 ^ (k - 1 - i) % 16) := by
      apply List.map_congr_left
      intro i hi
      have hik : i < k := List.mem_range.1 hi
      have : k + 1 - 1 - i = (k - 1 - i) + 1 := by omega
      rw [this, pow_succ, Nat.mul_comm, Nat.div_div_eq_div_mul]
    rw [hpre]
    have h1 := ih (n / 16)
    have h2 : hexDigit (hexChar (n / 16 ^ (k + 1 - 1 - k) % 16)) = some (n % 16) := by
      have : k + 1 - 1 - k = 0 := by omega
      rw [this, pow_zero, Nat.div_one]
      exact hexDigit_hexChar _ (Nat.mod_lt _ (by norm_num))
    rw [parseHex_append 0 _ _ _ _ h1 h2]
    congr 1
    rw [pow_succ, Nat.mul_comm (16 ^ k) 16, Nat.mod_mul]
    omega

/-- A rendered identifier is well formed and is cast back to itself. -/
theorem castObjectId_toHexString (oid : ObjectId) :
    castObjectId (ObjectId.toHexString oid) = some oid := by
  have hlen : (ObjectId.toHexString oid).length = 24 := by
    simp [ObjectId.toHexString, String.length]
  have hparse : parseHex 0 (ObjectId.toHexString oid).data = some oid.val := by
    have h := parseHex_digits 24 oid.val
    rw [Nat.mod_eq_of_lt oid.isLt] at h
    exact h
  unfold castObjectId
  rw [if_pos hlen, hparse]
  simp

/-- Distinct identifiers are rendered as distinct strings. -/
theorem toHexString_injective (a b : ObjectId)
    (h : ObjectId.toHexString a = ObjectId.toHexString b) : a = b := by
  have ha := castObjectId_toHexString a
  rw [h, castObjectId_toHexString b] at ha
  exact (Option.some.inj ha).symm

/-! ## Facts about the store model -/

theorem find_id_eq_none (oid : ObjectId) (ds : List Doc) :
    ds.find? (fun d => d._id == oid) = none ↔ oid ∉ ds.map Doc._id := by
  induction ds with
  | nil => simp
  | cons d ds ih =>
    by_cases h : d._id = oid
    · simp [List.find?, h]
    · have h' : ¬ oid = d._id := fun e => h e.symm
      have hb : (d._id == oid) = false := by simpa using h
      simp [List.find?, hb, h', ih]

theorem find_id_some (oid : ObjectId) (ds : List Doc) (d : Doc)
    (h : ds.find? (fun x => x._id == oid) = some d) : d ∈ ds ∧ d._id = oid := by
  refine ⟨List.mem_of_find?_eq_some h, ?_⟩
  simpa using List.find?_some h

theorem Store.updateFirst_none (oid : ObjectId) (f : Doc → Doc) (ds : List Doc) :
    Store.updateFirst oid f ds = none ↔ oid ∉ ds.map Doc._id := by
  induction ds with
  | nil => simp [Store.updateFirst]
  | cons d ds ih =>
    by_cases h : d._id = oid
    · simp [Store.updateFirst, h]
    · have h' : ¬ oid = d._id := fun e => h e.symm
      simp only [Store.updateFirst, h, if_false, List.map_cons, List.mem_cons, h', false_or]
      rw [← ih]
      cases Store.updateFirst oid f ds with
      | none => simp
      | some p => simp

theorem Store.updateFirst_some (oid : ObjectId) (f : Doc → Doc)
    (hf : ∀ d, (f d)._id = d._id) (ds ds' : List Doc) (r : Doc)
    (h : Store.updateFirst oid f ds = some (r, ds')) :
    (∃ d, ds.find? (fun x => x._id == oid) = some d ∧ r = f d) ∧
    ds'.find? (fun x => x._id == oid) = some r ∧
    (∀ other, other ≠ oid →
      ds'.find? (fun x => x._id == other) = ds.find? (fun x => x._id == other)) ∧
    ds'.map Doc._id = ds.map Doc._id ∧
    ∀ x ∈ ds', x ∈ ds ∨ x = r := by
  induction ds generalizing ds' r with
  | nil => simp [Store.updateFirst] at h
  | cons d ds ih =>
    by_cases hd : d._id = oid
    · simp only [Store.updateFirst, hd, if_true, Option.some.injEq, Prod.mk.injEq] at h
      obtain ⟨rfl, rfl⟩ := h
      refine ⟨⟨d, by simp [List.find?, hd], rfl⟩, by simp [List.find?, hf, hd], ?_, ?_, ?_⟩
      · intro other ho
        have h1 : (d._id == other) = false := by
          simpa using fun e : d._id = other => ho (e.symm.trans hd)
        simp [List.find?, hf, h1]
      · simp [hf]
      · intro x hx
        rcases List.mem_cons.1 hx with hx | hx
        · exact Or.inr hx
        · exact Or.inl (List.mem_cons_of_mem _ hx)
    · simp only [Store.updateFirst, hd, if_false] at h
      cases hrec : Store.updateFirst oid f ds with
      | none => simp [hrec] at h
      | some p =>
        obtain ⟨r0, ds0⟩ := p
        simp only [hrec, Option.some.injEq, Prod.mk.injEq] at h
        obtain ⟨rfl, rfl⟩ := h
        obtain ⟨⟨d0, hd0, hr0⟩, h2, h3, h4, h5⟩ := ih ds0 r0 hrec
        have hb : (d._id == oid) = false := by simpa using hd
        refine ⟨⟨d0, by simp [List.find?, hb, hd0], hr0⟩, by simp [List.find?, hb, h2], ?_, ?_, ?_⟩
        · intro other ho
          by_cases hdo : d._id = other
          · simp [List.find?, hdo]
          · have hbo : (d._id == other) = false := by simpa using hdo
            simp [List.find?, hbo, h3 other ho]
        · simp [h4]
        · intro x hx
          rcases List.mem_cons.1 hx with hx | hx
          · exact Or.inl (hx ▸ List.mem_cons_self _ _)
          · rcases h5 x hx with hx | hx
            · exact Or.inl (List.mem_cons_of_mem _ hx)
            · exact Or.inr hx

theorem Store.removeFirst_none (oid : ObjectId) (ds : List Doc) :
    Store.removeFirst oid ds = none ↔ oid ∉ ds.map Doc._id := by
  induction ds with
  | nil => simp [Store.removeFirst]
  | cons d ds ih =>
    by_cases h : d._id = oid
    · simp [Store.removeFirst, h]
    · have h' : ¬ oid = d._id := fun e => h e.symm
      simp only [Store.removeFirst, h, if_false, List.map_cons, List.mem_cons, h', false_or]
      rw [← ih]
      cases Store.removeFirst oid ds with
      | none => simp
      | some p => simp

theorem filter_id_of_not_mem (oid : ObjectId) (ds : List Doc) (h : oid ∉ ds.map Doc._id) :
    ds.filter (fun d => d._id != oid) = ds := by
  rw [List.filter_eq_self]
  intro d hd
  have : d._id ≠ oid := fun e => h (e ▸ List.mem_map_of_mem _ hd)
  simpa using this

theorem Store.removeFirst_some (oid : ObjectId) (ds ds' : List Doc) (r : Doc)
    (hnd : (ds.map Doc._id).Nodup) (h : Store.removeFirst oid ds = some (r, ds')) :
    r ∈ ds ∧ r._id = oid ∧ ds' = ds.filter (fun d => d._id != oid) ∧
    ds'.length + 1 = ds.length ∧ oid ∉ ds'.map Doc._id := by
  induction ds generalizing ds' r with
  | nil => simp [Store.removeFirst] at h
  | cons d ds ih =>
    rw [List.map_cons, List.nodup_cons] at hnd
    by_cases hd : d._id = oid
    · simp only [Store.removeFirst, hd, if_true, Option.some.injEq, Prod.mk.injEq] at h
      obtain ⟨rfl, rfl⟩ := h
      have hno : oid ∉ ds.map Doc._id := hd ▸ hnd.1
      refine ⟨List.mem_cons_self _ _, hd, ?_, rfl, hno⟩
      rw [List.filter_cons_of_neg (by simp [hd]), filter_id_of_not_mem oid ds hno]
    · simp only [Store.removeFirst, hd, if_false] at h
      cases hrec : Store.removeFirst oid ds with
      | none => simp [hrec] at h
      | some p =>
        obtain ⟨r0, ds0⟩ := p
        simp only [hrec, Option.some.injEq, Prod.mk.injEq] at h
        obtain ⟨rfl, rfl⟩ := h
        obtain ⟨h1, h2, h3, h4, h5⟩ := ih ds0 r0 hnd.2 hrec
        have h' : ¬ oid = d._id := fun e => hd e.symm
        refine ⟨List.mem_cons_of_mem _ h1, h2, ?_, by simp [← h4], ?_⟩
        · rw [List.filter_cons_of_pos (by simp [hd]), h3]
        · simp [h', h5]

/-! ## Running a handler against the store -/

theorem Handler.run_create (f : CreateFields) (k : Except StoreError Doc → Response)
    (st : Store) :
    (Handler.create f k).run st = (k (st.create f).1, (st.create f).2) := rfl

theorem Handler.run_update (id : String) (u : Updates)
    (k : Except StoreError (Option Doc) → Response) (st : Store) :
    (Handler.findByIdAndUpdate id u k).run st =
      (k (st.findByIdAndUpdate id u).1, (st.findByIdAndUpdate id u).2) := rfl

theorem Handler.run_delete (id : String) (k : Except StoreError (Option Doc) → Response)
    (st : Store) :
    (Handler.findByIdAndDelete id k).run st =
      (k (st.findByIdAndDelete id).1, (st.findByIdAndDelete id).2) := rfl

/-! ## Create: normalisation and result -/

theorem postTodo_valid (body : Option ReqBody) (now title : String)
    (htitle : (bodyOrEmpty body).title = JsVal.str title) (hne : title ≠ "") :
    ∃ k, postTodo body now =
        Handler.create
          { title := jsTrim title
            completed := (bodyOrEmpty body).completed.toBoolean
            updatedAt := (bodyOrEmpty body).updatedAt.orElse (JsVal.str now) } k ∧
      (∀ d, k (.ok d) = { status := 201, body := ResBody.todo (toJson d) }) ∧
      ∀ e, k (.error e) = serverError := by
  unfold postTodo
  generalize bodyOrEmpty body = b at htitle ⊢
  obtain ⟨t, c, u⟩ := b
  simp only at htitle
  subst htitle
  have hc : (!(JsVal.str title).toBoolean || !(JsVal.str title).isString) = false := by
    simp [JsVal.toBoolean, JsVal.isString, hne]
  simp only [hc, Bool.false_eq_true, if_false]
  exact ⟨_, rfl, fun _ => rfl, fun _ => rfl⟩

theorem Store.create_ok (st : Store) (f : CreateFields) (d : Doc)
    (h : (st.create f).1 = .ok d) :
    castString f.updatedAt = some d.updatedAt ∧ f.title ≠ "" ∧ d.updatedAt ≠ "" ∧
    d._id.val = st.nextId ∧ d.title = f.title ∧ d.completed = f.completed ∧
    (st.create f).2 = { docs := st.docs ++ [d], nextId := st.nextId + 1 } := by
  unfold Store.create at h ⊢
  cases hc : castString f.updatedAt with
  | none => simp [hc] at h
  | some t =>
    simp only [hc] at h ⊢
    by_cases hv : f.title = "" ∨ t = ""
    · simp [hv] at h
    · by_cases hn : st.nextId < 16 ^ 24
      · simp only [hv, if_false, hn, dite_true, Except.ok.injEq] at h ⊢
        subst h
        simp only [not_or] at hv
        exact ⟨rfl, hv.1, hv.2, rfl, rfl, rfl, rfl⟩
      · rw [if_neg hv, dif_neg hn] at h
        cases h

theorem toHexString_length (oid : ObjectId) : (ObjectId.toHexString oid).length = 24 := by
  simp [ObjectId.toHexString, String.length]

/-- C4, as stated, fails: a valid create that supplies the empty string as
`updatedAt` is answered 201 with the current time as `updatedAt`, not with
the supplied value; and one that supplies the number 5 is answered 201 with
the string "5", the store's cast of the number to the schema type. -/
theorem C4_counterexample :
    (∃ t, ((postTodo (some { title := JsVal.str "buy milk", updatedAt := JsVal.str "" })
          "2024-01-01T00:00:00.000Z").run Store.empty).1 =
        { status := 201, body := ResBody.todo t } ∧
      JsVal.str t.updatedAt ≠
        specUpdatedAt { title := JsVal.str "buy milk", updatedAt := JsVal.str "" }
          "2024-01-01T00:00:00.000Z") ∧
    ∃ t, ((postTodo (some { title := JsVal.str "buy milk", updatedAt := JsVal.num "5" })
          "2024-01-01T00:00:00.000Z").run Store.empty).1 =
        { status := 201, body := ResBody.todo t } ∧
      JsVal.str t.updatedAt ≠
        specUpdatedAt { title := JsVal.str "buy milk", updatedAt := JsVal.num "5" }
          "2024-01-01T00:00:00.000Z" :=
  ⟨⟨{ id := 0, title := "buy milk", completed := false,
      updatedAt := "2024-01-01T00:00:00.000Z" }, by decide,
    by simp [specUpdatedAt, JsVal.isDefined]⟩,
   ⟨{ id := 0, title := "buy milk", completed := false, updatedAt := "5" }, by decide,
    by simp [specUpdatedAt, JsVal.isDefined]⟩⟩

/-- C4, amended: for every valid create request (title a non-empty string)
whose store call succeeds, the response has status 201 and its body is the
Todo of the created record: its title is the input title trimmed, its
completed is the truthiness coercion of the input completed, its updatedAt is
the supplied updatedAt when that is a non-empty string, the store's string
cast of the supplied updatedAt when that is another truthy value, and the
current time when updatedAt is absent or falsy; its id is the store-assigned
identifier of the new record, whose rendering is non-empty, is not the
rendering of the id of any record existing before the call, and is the path
identifier under which the store finds the new record. -/
theorem C4_create_result (body : Option ReqBody) (now title : String) (st : Store)
    (f : CreateFields) (d : Doc)
    (htitle : (bodyOrEmpty body).title = JsVal.str title) (hne : title ≠ "")
    (hwf : st.WF)
    (hcall : (postTodo body now).storeCalls = [StoreCall.create f])
    (hok : (st.create f).1 = .ok d) :
    ((postTodo body now).run st).1 = { status := 201, body := ResBody.todo (toJson d) } ∧
    (toJson d).title = jsTrim title ∧
    (toJson d).completed = (bodyOrEmpty body).completed.toBoolean ∧
    castString (if (bodyOrEmpty body).updatedAt.toBoolean then (bodyOrEmpty body).updatedAt
        else JsVal.str now) = some (toJson d).updatedAt ∧
    ((bodyOrEmpty body).updatedAt.toBoolean = false → (toJson d).updatedAt = now) ∧
    (∀ u, (bodyOrEmpty body).updatedAt = JsVal.str u → u ≠ "" → (toJson d).updatedAt = u) ∧
    (toJson d).id ∉ st.ids ∧
    ObjectId.toHexString (toJson d).id ≠ "" ∧
    ObjectId.toHexString (toJson d).id ∉ st.ids.map ObjectId.toHexString ∧
    castObjectId (ObjectId.toHexString (toJson d).id) = some d._id ∧
    ((postTodo body now).run st).2.docs = st.docs ++ [d] ∧
    ((postTodo body now).run st).2.findById d._id = some d := by
  obtain ⟨k, hk, hk1, _⟩ := postTodo_valid body now title htitle hne
  rw [hk] at hcall
  simp only [Handler.storeCalls, List.cons.injEq, StoreCall.create.injEq, and_true] at hcall
  rw [hcall] at hk
  have hft : f.title = jsTrim title := by rw [← hcall]
  have hfc : f.completed = (bodyOrEmpty body).completed.toBoolean := by rw [← hcall]
  have hfu : f.updatedAt = (bodyOrEmpty body).updatedAt.orElse (JsVal.str now) := by
    rw [← hcall]
  rw [hk]
  obtain ⟨hcast, _, _, hid, htl, hcp, hst⟩ := Store.create_ok st f d hok
  rw [hft] at htl
  rw [hfc] at hcp
  have hcast' : castString (if (bodyOrEmpty body).updatedAt.toBoolean then
      (bodyOrEmpty body).updatedAt else JsVal.str now) = some d.updatedAt := by
    rw [← hcast, hfu]
    rfl
  have hfresh : d._id ∉ st.ids := by
    intro hmem
    have hlt := hwf.2 _ hmem
    rw [hid] at hlt
    exact lt_irrefl _ hlt
  have hdocs : ((Handler.create f k).run st).2.docs = st.docs ++ [d] := by
    rw [Handler.run_create, hst]
  refine ⟨?_, htl, hcp, hcast', ?_, ?_, hfresh, ?_, ?_, castObjectId_toHexString _, hdocs, ?_⟩
  · rw [Handler.run_create, hok, hk1]
  · intro hf
    rw [hf] at hcast'
    simpa [castString] using hcast'.symm
  · intro u hu hune
    rw [hu] at hcast'
    have : (JsVal.str u).toBoolean = true := (JsVal.toBoolean_str u).2 hune
    rw [this] at hcast'
    simpa [castString] using hcast'.symm
  · intro h
    have hlen := toHexString_length (toJson d).id
    rw [h] at hlen
    simp at hlen
  · intro hmem
    obtain ⟨o, ho, he⟩ := List.mem_map.1 hmem
    have e : o = d._id := toHexString_injective _ _ he
    subst e
    exact hfresh ho
  · have hnone : st.docs.find? (fun x => x._id == d._id) = none :=
      (find_id_eq_none d._id st.docs).2 hfresh
    simp only [Store.findById, hdocs, List.find?_append, hnone]
    simp

/-- C4 at a concrete input: creating "  buy milk " in the empty store. -/
theorem C4_create_result_witness :
    ((postTodo (some { title := JsVal.str "  buy milk " }) "2024-01-01T00:00:00.000Z").run
        Store.empty).1 =
      { status := 201,
        body := ResBody.todo { id := 0, title := "buy milk", completed := false,
                               updatedAt := "2024-01-01T00:00:00.000Z" } } :=
  (C4_create_result (some { title := JsVal.str "  buy milk " }) "2024-01-01T00:00:00.000Z"
    "  buy milk " Store.empty
    { title := "buy milk", completed := false,
      updatedAt := JsVal.str "2024-01-01T00:00:00.000Z" }
    { _id := 0, title := "buy milk", completed := false,
      updatedAt := "2024-01-01T00:00:00.000Z" }
    rfl (by decide) (by simp [Store.WF, Store.ids, Store.empty]) rfl rfl).1

/-! ## Absent identifiers -/

theorem Store.delete_absent (st : Store) (id : String) (oid : ObjectId)
    (hid : castObjectId id = some oid) (habsent : oid ∉ st.ids) :
    st.findByIdAndDelete id = (.ok none, st) := by
  have h := (Store.removeFirst_none oid st.docs).2 habsent
  simp [Store.findByIdAndDelete, hid, h]

theorem Store.update_absent (st : Store) (id : String) (oid : ObjectId) (u : Updates)
    (t : String) (hid : castObjectId id = some oid) (habsent : oid ∉ st.ids)
    (ht : castString u.updatedAt = some t) :
    st.findByIdAndUpdate id u = (.ok none, st) := by
  have h := (Store.updateFirst_none oid (Store.applyUpdates u.title u.completed t) st.docs).2
    habsent
  simp [Store.findByIdAndUpdate, hid, ht, h]

theorem Store.update_state_of_absent (st : Store) (id : String) (oid : ObjectId) (u : Updates)
    (hid : castObjectId id = some oid) (habsent : oid ∉ st.ids) :
    (st.findByIdAndUpdate id u).2 = st := by
  cases ht : castString u.updatedAt with
  | none => simp [Store.findByIdAndUpdate, hid, ht]
  | some t => rw [Store.update_absent st id oid u t hid habsent ht]

theorem castString_falsy_orElse (v : JsVal) (now : String) (h : v.toBoolean = false) :
    castString (v.orElse (JsVal.str now)) = some now := by
  simp [JsVal.orElse, h, castString]

theorem deleteTodo_absent (st : Store) (id : String) (oid : ObjectId)
    (hid : castObjectId id = some oid) (habsent : oid ∉ st.ids) :
    (deleteTodo id).run st = ({ status := 404, body := ResBody.error "not found" }, st) := by
  show (Handler.findByIdAndDelete id _).run st = _
  rw [Handler.run_delete, Store.delete_absent st id oid hid habsent]

/-! ## Not-found -/

/-- C5, as stated, fails: a path identifier that is not a well-formed store
identifier names no record, yet update and delete answer 500, not 404; and an
update of an absent well-formed identifier whose `updatedAt` the store cannot
cast to a string answers 500 as well. -/
theorem C5_counterexample :
    Store.empty.docs = [] ∧
    ((deleteTodo "abc").run Store.empty).1 = serverError ∧
    ((putTodo "abc" none "2024-01-01T00:00:00.000Z").run Store.empty).1 = serverError ∧
    ((putTodo "000000000000000000000000" (some { updatedAt := JsVal.arr [] })
        "2024-01-01T00:00:00.000Z").run Store.empty).1 = serverError := by
  refine ⟨rfl, ?_, ?_, ?_⟩ <;> decide

/-- C5, amended: for every well-formed path identifier (24 hexadecimal digits)
for which the store holds no record, `DELETE /api/todos/{id}` responds 404
`{error: "not found"}`, and `PUT /api/todos/{id}` responds 404
`{error: "not found"}` for every body whose written `updatedAt` the store can
cast to a string (in particular when the body's updatedAt is absent or
falsy, a string, a number, a boolean, or an object with a string `_id`), and
500 only for a body whose written `updatedAt` the store cannot cast; neither
creates a record: the store is left unchanged. -/
theorem C5_not_found (st : Store) (id : String) (oid : ObjectId) (body : Option ReqBody)
    (now : String) (hid : castObjectId id = some oid) (habsent : oid ∉ st.ids) :
    (deleteTodo id).run st = ({ status := 404, body := ResBody.error "not found" }, st) ∧
    ((castString (putUpdates (bodyOrEmpty body) now).updatedAt).isSome = true →
      (putTodo id body now).run st =
        ({ status := 404, body := ResBody.error "not found" }, st)) ∧
    ((bodyOrEmpty body).updatedAt.toBoolean = false →
      (putTodo id body now).run st =
        ({ status := 404, body := ResBody.error "not found" }, st)) ∧
    ((∃ u, (bodyOrEmpty body).updatedAt = JsVal.str u ∨
          (bodyOrEmpty body).updatedAt = JsVal.num u ∨
          ∃ fields, (bodyOrEmpty body).updatedAt = JsVal.obj fields ∧
            fields.lookup "_id" = some (JsVal.str u) ∧ u ≠ "") →
      (putTodo id body now).run st =
        ({ status := 404, body := ResBody.error "not found" }, st)) ∧
    ((∃ b, (bodyOrEmpty body).updatedAt = JsVal.bool b) →
      (putTodo id body now).run st =
        ({ status := 404, body := ResBody.error "not found" }, st)) ∧
    (castString (putUpdates (bodyOrEmpty body) now).updatedAt = none →
      (putTodo id body now).run st = (serverError, st)) ∧
    ((putTodo id body now).run st).2 = st := by
  have hput : ∀ t, castString (putUpdates (bodyOrEmpty body) now).updatedAt = some t →
      (putTodo id body now).run st =
        ({ status := 404, body := ResBody.error "not found" }, st) := by
    intro t ht
    show (Handler.findByIdAndUpdate id _ _).run st = _
    rw [Handler.run_update, Store.update_absent st id oid _ t hid habsent ht]
  have hsome : (castString (putUpdates (bodyOrEmpty body) now).updatedAt).isSome = true →
      (putTodo id body now).run st =
        ({ status := 404, body := ResBody.error "not found" }, st) := by
    intro h
    obtain ⟨t, ht⟩ := Option.isSome_iff_exists.1 h
    exact hput t ht
  refine ⟨?_, hsome, ?_, ?_, ?_, ?_, ?_⟩
  · show (Handler.findByIdAndDelete id _).run st = _
    rw [Handler.run_delete, Store.delete_absent st id oid hid habsent]
  · intro h
    exact hput now (castString_falsy_orElse _ now h)
  · rintro ⟨u, h | h | ⟨fields, h, hl, hu⟩⟩
    · apply hsome
      by_cases hu : u = ""
      · simp [putUpdates, h, hu, JsVal.orElse, JsVal.toBoolean, castString]
      · simp [putUpdates, h, hu, JsVal.orElse, JsVal.toBoolean, castString]
    · apply hsome
      by_cases hu : u = "0"
      · simp [putUpdates, h, hu, JsVal.orElse, JsVal.toBoolean, castString]
      · simp [putUpdates, h, hu, JsVal.orElse, JsVal.toBoolean, castString]
    · apply hsome
      simp [putUpdates, h, hl, hu, JsVal.orElse, JsVal.toBoolean, castString]
  · rintro ⟨b, h⟩
    apply hsome
    cases b <;> simp [putUpdates, h, JsVal.orElse, JsVal.toBoolean, castString]
  · intro h
    show (Handler.findByIdAndUpdate id _ _).run st = _
    rw [Handler.run_update]
    simp [Store.findByIdAndUpdate, hid, h]
  · show ((Handler.findByIdAndUpdate id _ _).run st).2 = _
    rw [Handler.run_update]
    exact Store.update_state_of_absent st id oid _ hid habsent

/-- C5 at a concrete input: a well-formed identifier that was never created. -/
theorem C5_not_found_witness :
    (deleteTodo "0000000000000000000000ff").run Store.empty =
      ({ status := 404, body := ResBody.error "not found" }, Store.empty) :=
  (C5_not_found Store.empty "0000000000000000000000ff" 255 none "2024-01-01T00:00:00.000Z"
    (by decide) (by simp [Store.ids, Store.empty])).1

/-! ## Timestamps under a non-decreasing clock -/

theorem tsLe_trans {a b c : String} (h1 : tsLe a b) (h2 : tsLe b c) : tsLe a c :=
  le_trans (α := List Char) h1 h2

theorem tsLe_refl (a : String) : tsLe a a :=
  le_refl (α := List Char) a.data

theorem Store.removeFirst_mem (oid : ObjectId) (ds ds' : List Doc) (r : Doc)
    (h : Store.removeFirst oid ds = some (r, ds')) : ∀ x ∈ ds', x ∈ ds := by
  induction ds generalizing ds' r with
  | nil => simp [Store.removeFirst] at h
  | cons d ds ih =>
    by_cases hd : d._id = oid
    · simp only [Store.removeFirst, hd, if_true, Option.some.injEq, Prod.mk.injEq] at h
      obtain ⟨rfl, rfl⟩ := h
      exact fun x hx => List.mem_cons_of_mem _ hx
    · simp only [Store.removeFirst, hd, if_false] at h
      cases hrec : Store.removeFirst oid ds with
      | none => simp [hrec] at h
      | some p =>
        obtain ⟨r0, ds0⟩ := p
        simp only [hrec, Option.some.injEq, Prod.mk.injEq] at h
        obtain ⟨rfl, rfl⟩ := h
        intro x hx
        rcases List.mem_cons.1 hx with hx | hx
        · exact hx ▸ List.mem_cons_self _ _
        · exact List.mem_cons_of_mem _ (ih ds0 r0 hrec x hx)

theorem applyUpdates_id (title : Option String) (completed : Option Bool) (t : String)
    (d : Doc) : (Store.applyUpdates title completed t d)._id = d._id := rfl

/-- A handler run whose written `updatedAt` is not later than `now` keeps every
stored `updatedAt` not later than `now`. -/
theorem Handler.run_updatedAt_le (h : Handler) (st : Store) (now : String)
    (hst : ∀ d ∈ st.docs, tsLe d.updatedAt now)
    (hsent : ∀ call ∈ h.storeCalls, ∀ v u,
      call.sentUpdatedAt = some v → castString v = some u → tsLe u now) :
    ∀ d ∈ (h.run st).2.docs, tsLe d.updatedAt now := by
  cases h with
  | respond r => exact hst
  | find sort k => exact hst
  | create f k =>
    rw [Handler.run_create]
    unfold Store.create
    cases hc : castString f.updatedAt with
    | none => exact hst
    | some t =>
      by_cases hv : f.title = "" ∨ t = ""
      · simpa [hv] using hst
      · by_cases hn : st.nextId < 16 ^ 24
        · simp only [hv, if_false, dif_pos hn]
          intro d hd
          rcases List.mem_append.1 hd with hd | hd
          · exact hst d hd
          · rw [List.mem_singleton.1 hd]
            exact hsent _ (List.mem_singleton.2 rfl) f.updatedAt t rfl hc
        · simp only [hv, if_false, dif_neg hn]
          exact hst
  | findByIdAndUpdate id u k =>
    rw [Handler.run_update]
    unfold Store.findByIdAndUpdate
    cases hi : castObjectId id with
    | none => exact hst
    | some oid =>
      cases hc : castString u.updatedAt with
      | none => exact hst
      | some t =>
        cases hu : Store.updateFirst oid (Store.applyUpdates u.title u.completed t) st.docs with
        | none => simp only [hu]; exact hst
        | some p =>
          obtain ⟨r, ds⟩ := p
          obtain ⟨⟨d0, _, hr⟩, _, _, _, hmem⟩ :=
            Store.updateFirst_some oid _ (applyUpdates_id _ _ _) st.docs ds r hu
          simp only [hu]
          intro d hd
          rcases hmem d hd with hd | hd
          · exact hst d hd
          · rw [hd, hr]
            exact hsent _ (List.mem_singleton.2 rfl) u.updatedAt t rfl hc
  | findByIdAndDelete id k =>
    rw [Handler.run_delete]
    unfold Store.findByIdAndDelete
    cases hi : castObjectId id with
    | none => exact hst
    | some oid =>
      cases hu : Store.removeFirst oid st.docs with
      | none => simp only [hu]; exact hst
      | some p =>
        obtain ⟨r, ds⟩ := p
        simp only [hu]
        exact fun d hd => hst d (Store.removeFirst_mem oid st.docs ds r hu d hd)

/-- In a store state reached without any `updatedAt` written ahead of the
clock, no stored `updatedAt` is later than the last clock reading. -/
theorem ReachableOnClock.updatedAt_le {st : Store} {t : String}
    (h : ReachableOnClock st t) : ∀ d ∈ st.docs, tsLe d.updatedAt t := by
  induction h with
  | init t => intro d hd; simp [Store.empty] at hd
  | step s t now op _ hclock hsent ih =>
    exact Handler.run_updatedAt_le _ s now (fun d hd => tsLe_trans (ih d hd) hclock) hsent

theorem Store.update_present (st : Store) (id : String) (oid : ObjectId) (u : Updates)
    (t : String) (d : Doc) (hid : castObjectId id = some oid)
    (ht : castString u.updatedAt = some t) (hd : st.findById oid = some d) :
    (st.findByIdAndUpdate id u).1 = .ok (some (Store.applyUpdates u.title u.completed t d)) ∧
    (st.findByIdAndUpdate id u).2.findById oid =
      some (Store.applyUpdates u.title u.completed t d) ∧
    (∀ other, other ≠ oid →
      (st.findByIdAndUpdate id u).2.findById other = st.findById other) ∧
    (st.findByIdAndUpdate id u).2.ids = st.ids ∧
    (st.findByIdAndUpdate id u).2.nextId = st.nextId := by
  unfold Store.findByIdAndUpdate
  simp only [hid, ht]
  cases hu : Store.updateFirst oid (Store.applyUpdates u.title u.completed t) st.docs with
  | none =>
    have h1 := (Store.updateFirst_none _ _ _).1 hu
    have h2 := (find_id_eq_none oid st.docs).2 h1
    simp [Store.findById, h2] at hd
  | some p =>
    obtain ⟨r, ds⟩ := p
    obtain ⟨⟨d0, hd0, hr⟩, h2, h3, h4, _⟩ :=
      Store.updateFirst_some oid _ (applyUpdates_id _ _ _) st.docs ds r hu
    have hdd : d0 = d := by
      have : some d0 = some d := hd0.symm.trans hd
      exact Option.some.inj this
    subst hdd
    subst hr
    exact ⟨rfl, h2, h3, h4, rfl⟩

/-- C6, as stated, fails: a record created with a caller-supplied `updatedAt`
in the future is reachable, and an update of it that supplies only
`completed`, served at a later clock reading, leaves it with a smaller
`updatedAt` than before. -/
theorem C6_counterexample :
    Reachable
      { docs := [{ _id := 0, title := "buy milk", completed := false,
                   updatedAt := "9999-12-31T00:00:00.000Z" }], nextId := 1 }
      "2024-01-01T00:00:00.000Z" ∧
    tsLe "2024-01-01T00:00:00.000Z" "2024-01-02T00:00:00.000Z" ∧
    ((putTodo "000000000000000000000000" (some { completed := JsVal.bool true })
        "2024-01-02T00:00:00.000Z").run
      { docs := [{ _id := 0, title := "buy milk", completed := false,
                   updatedAt := "9999-12-31T00:00:00.000Z" }], nextId := 1 }).2.docs =
      [{ _id := 0, title := "buy milk", completed := true,
         updatedAt := "2024-01-02T00:00:00.000Z" }] ∧
    ¬ tsLe "9999-12-31T00:00:00.000Z" "2024-01-02T00:00:00.000Z" := by
  refine ⟨?_, by decide, by decide, by decide⟩
  exact Reachable.step Store.empty "2024-01-01T00:00:00.000Z" "2024-01-01T00:00:00.000Z"
    (WriteOp.create (some { title := JsVal.str "buy milk",
                            updatedAt := JsVal.str "9999-12-31T00:00:00.000Z" }))
    (Reachable.init _) (by decide)

/-- C6, amended: for every store state reachable through create and update
requests served under a non-decreasing clock, none of which wrote an
`updatedAt` later than the clock reading at which it was served (as is the
case when no request supplies `updatedAt`), and every existing record in it,
an update whose body supplies only `completed` sets that record's `updatedAt`
to the current time, which is greater than or equal to the `updatedAt` the
record had before. -/
theorem C6_update_refreshes_timestamp (st : Store) (t now : String) (id : String)
    (oid : ObjectId) (d : Doc) (c : JsVal)
    (hreach : ReachableOnClock st t) (hclock : tsLe t now)
    (hid : castObjectId id = some oid) (hd : st.findById oid = some d) :
    ∃ d', ((putTodo id (some { completed := c }) now).run st).1 =
        { status := 200, body := ResBody.todo (toJson d') } ∧
      ((putTodo id (some { completed := c }) now).run st).2.findById oid = some d' ∧
      d'.updatedAt = now ∧ tsLe d.updatedAt d'.updatedAt := by
  have ht : castString (putUpdates (bodyOrEmpty (some { completed := c })) now).updatedAt =
      some now := rfl
  obtain ⟨h1, h2, _⟩ := Store.update_present st id oid _ now d hid ht hd
  refine ⟨Store.applyUpdates (putUpdates (bodyOrEmpty (some { completed := c })) now).title
    (putUpdates (bodyOrEmpty (some { completed := c })) now).completed now d, ?_, ?_, rfl, ?_⟩
  · show ((Handler.findByIdAndUpdate id _ _).run st).1 = _
    rw [Handler.run_update]
    simp only [h1]
  · show ((Handler.findByIdAndUpdate id _ _).run st).2.findById oid = _
    rw [Handler.run_update]
    exact h2
  · have hmem := (find_id_some oid st.docs d hd).1
    exact tsLe_trans (hreach.updatedAt_le d hmem) hclock

/-- C6 at a concrete input: a record created on the clock, then completed a
day later. -/
theorem C6_update_refreshes_timestamp_witness :
    Option.map Doc.updatedAt
        (((putTodo "000000000000000000000000" (some { completed := JsVal.bool true })
            "2024-01-02T00:00:00.000Z").run
          { docs := [{ _id := 0, title := "buy milk", completed := false,
                       updatedAt := "2024-01-01T00:00:00.000Z" }], nextId := 1 }).2.findById 0) =
      some "2024-01-02T00:00:00.000Z" ∧
    tsLe "2024-01-01T00:00:00.000Z" "2024-01-02T00:00:00.000Z" := by
  obtain ⟨d', _, h2, h3, h4⟩ := C6_update_refreshes_timestamp
    { docs := [{ _id := 0, title := "buy milk", completed := false,
                 updatedAt := "2024-01-01T00:00:00.000Z" }], nextId := 1 }
    "2024-01-01T00:00:00.000Z" "2024-01-02T00:00:00.000Z" "000000000000000000000000" 0
    { _id := 0, title := "buy milk", completed := false,
      updatedAt := "2024-01-01T00:00:00.000Z" }
    (JsVal.bool true)
    (ReachableOnClock.step Store.empty "2024-01-01T00:00:00.000Z" "2024-01-01T00:00:00.000Z"
      (WriteOp.create (some { title := JsVal.str "buy milk" }))
      (ReachableOnClock.init _) (by decide)
      (by
        intro call hcall v u hv hu
        have hcall' : call = StoreCall.create
            { title := "buy milk", completed := false,
              updatedAt := JsVal.str "2024-01-01T00:00:00.000Z" } :=
          List.mem_singleton.1 hcall
        subst hcall'
        cases hv
        cases hu
        exact tsLe_refl _))
    (by decide) (by decide) rfl
  rw [h2]
  exact ⟨congrArg some h3, h3 ▸ h4⟩

/-! ## Partial merge -/

/-- C7: an update of an existing record over the merge-style store leaves the
fields the body does not supply unchanged: the stored title when the body's
title is absent (or is not a string), as it is when the body supplies only
`completed`; the stored completed when the body's completed is absent; the
record keeps its id, and every other record in the store is unchanged. -/
theorem C7_partial_merge (st : Store) (id : String) (oid : ObjectId)
    (body : Option ReqBody) (now : String) (d : Doc)
    (hid : castObjectId id = some oid) (hd : st.findById oid = some d) :
    ∃ d', ((putTodo id body now).run st).2.findById oid = some d' ∧
      d'._id = d._id ∧
      ((bodyOrEmpty body).title.isString = false → d'.title = d.title) ∧
      ((bodyOrEmpty body).completed = JsVal.undefined → d'.completed = d.completed) ∧
      (∀ other, other ≠ oid →
        ((putTodo id body now).run st).2.findById other = st.findById other) ∧
      ((putTodo id body now).run st).2.ids = st.ids := by
  have hrun : ((putTodo id body now).run st).2 =
      (st.findByIdAndUpdate id (putUpdates (bodyOrEmpty body) now)).2 := rfl
  rw [hrun]
  cases ht : castString (putUpdates (bodyOrEmpty body) now).updatedAt with
  | none =>
    have hsame : (st.findByIdAndUpdate id (putUpdates (bodyOrEmpty body) now)).2 = st := by
      simp [Store.findByIdAndUpdate, hid, ht]
    rw [hsame]
    exact ⟨d, hd, rfl, fun _ => rfl, fun _ => rfl, fun _ _ => rfl, rfl⟩
  | some t =>
    obtain ⟨_, h2, h3, h4, _⟩ := Store.update_present st id oid _ t d hid ht hd
    refine ⟨_, h2, rfl, ?_, ?_, h3, h4⟩
    · intro hs
      have hnone : (putUpdates (bodyOrEmpty body) now).title = none := by
        generalize bodyOrEmpty body = b at hs ⊢
        obtain ⟨title, completed, updatedAt⟩ := b
        cases title <;> simp [putUpdates, JsVal.isString] at hs ⊢
      simp [Store.applyUpdates, hnone]
    · intro hc
      have hnone : (putUpdates (bodyOrEmpty body) now).completed = none := by
        simp [putUpdates, hc, JsVal.isDefined]
      simp [Store.applyUpdates, hnone]

/-- C7 at a concrete input: completing "buy milk" keeps its title. -/
theorem C7_partial_merge_witness :
    Option.map Doc.title
        (((putTodo "000000000000000000000000" (some { completed := JsVal.bool true })
            "2024-01-02T00:00:00.000Z").run
          { docs := [{ _id := 0, title := "buy milk", completed := false,
                       updatedAt := "2024-01-01T00:00:00.000Z" }], nextId := 1 }).2.findById 0) =
      some "buy milk" := by
  obtain ⟨d', h1, _, h3, _⟩ := C7_partial_merge
    { docs := [{ _id := 0, title := "buy milk", completed := false,
                 updatedAt := "2024-01-01T00:00:00.000Z" }], nextId := 1 }
    "000000000000000000000000" 0 (some { completed := JsVal.bool true })
    "2024-01-02T00:00:00.000Z"
    { _id := 0, title := "buy milk", completed := false,
      updatedAt := "2024-01-01T00:00:00.000Z" }
    (by decide) (by decide)
  rw [h1]
  exact congrArg some (h3 rfl)

/-! ## Listing and deleting -/

theorem sortBefore_updatedAt_desc (a b : Doc) :
    Store.sortBefore { path := "updatedAt", direction := -1 } a b ↔
      tsLe b.updatedAt a.updatedAt := by
  simp [Store.sortBefore, Store.fieldLe, tsLe]

theorem sortBefore_updatedAt_asc (a b : Doc) :
    Store.sortBefore { path := "updatedAt", direction := 1 } a b ↔
      tsLe a.updatedAt b.updatedAt := by
  simp [Store.sortBefore, Store.fieldLe, tsLe]

theorem getTodos_run (st : Store) :
    getTodos.run st =
      ({ status := 200,
         body := ResBody.todos
           ((st.docs.insertionSort
             (Store.sortBefore { path := "updatedAt", direction := -1 })).map toJson) }, st) :=
  rfl

theorem list_has_no_absent_id (st : Store) (oid : ObjectId) (h : oid ∉ st.ids) :
    ∃ ts, (getTodos.run st).1 = { status := 200, body := ResBody.todos ts } ∧
      ∀ t ∈ ts, t.id ≠ oid := by
  refine ⟨_, by rw [getTodos_run], ?_⟩
  intro t ht
  obtain ⟨d, hd, rfl⟩ := List.mem_map.1 ht
  have hd' : d ∈ st.docs := (List.perm_insertionSort _ _).subset hd
  intro e
  exact h (List.mem_map.2 ⟨d, hd', e⟩)

/-- C8: for a store state and the id of a record present in it, the first
`DELETE /api/todos/{id}` responds 204 with an empty body and removes exactly
that record; a second delete of the same id responds 404
`{error: "not found"}` and changes nothing; after the first and after the
second call the list operation's result holds no Todo with that id. -/
theorem C8_delete_twice (st : Store) (id : String) (oid : ObjectId) (hwf : st.WF)
    (hid : castObjectId id = some oid) (hmem : oid ∈ st.ids) :
    ((deleteTodo id).run st).1 = { status := 204, body := ResBody.empty } ∧
    ((deleteTodo id).run st).2.docs = st.docs.filter (fun d => d._id != oid) ∧
    ((deleteTodo id).run st).2.docs.length + 1 = st.docs.length ∧
    (deleteTodo id).run ((deleteTodo id).run st).2 =
      ({ status := 404, body := ResBody.error "not found" }, ((deleteTodo id).run st).2) ∧
    (∃ ts, (getTodos.run ((deleteTodo id).run st).2).1 =
        { status := 200, body := ResBody.todos ts } ∧ ∀ t ∈ ts, t.id ≠ oid) ∧
    ∃ ts, (getTodos.run ((deleteTodo id).run ((deleteTodo id).run st).2).2).1 =
        { status := 200, body := ResBody.todos ts } ∧ ∀ t ∈ ts, t.id ≠ oid := by
  cases hr : Store.removeFirst oid st.docs with
  | none => exact absurd hmem ((Store.removeFirst_none oid st.docs).1 hr)
  | some p =>
    obtain ⟨r, ds⟩ := p
    obtain ⟨_, _, h3, h4, h5⟩ := Store.removeFirst_some oid st.docs ds r hwf.1 hr
    have hdel : st.findByIdAndDelete id = (.ok (some r), { st with docs := ds }) := by
      simp [Store.findByIdAndDelete, hid, hr]
    have hrun : (deleteTodo id).run st =
        ({ status := 204, body := ResBody.empty }, { st with docs := ds }) := by
      show (Handler.findByIdAndDelete id _).run st = _
      rw [Handler.run_delete, hdel]
    have habsent : oid ∉ Store.ids { st with docs := ds } := h5
    have hsecond := (deleteTodo_absent { st with docs := ds } id oid hid habsent)
    rw [hrun]
    refine ⟨rfl, h3, h4, hsecond, list_has_no_absent_id _ oid habsent, ?_⟩
    rw [hsecond]
    exact list_has_no_absent_id _ oid habsent

/-- C8 at a concrete input: deleting the only record of a store. -/
theorem C8_delete_twice_witness :
    ((deleteTodo "000000000000000000000000").run
        { docs := [{ _id := 0, title := "buy milk", completed := false,
                     updatedAt := "2024-01-01T00:00:00.000Z" }], nextId := 1 }).1 =
      { status := 204, body := ResBody.empty } :=
  (C8_delete_twice
    { docs := [{ _id := 0, title := "buy milk", completed := false,
                 updatedAt := "2024-01-01T00:00:00.000Z" }], nextId := 1 }
    "000000000000000000000000" 0 (by simp [Store.WF, Store.ids]) (by decide)
    (by simp [Store.ids])).1

/-- C9: for every store state, when the store read succeeds `GET /api/todos`
responds 200 with an array that has exactly one element per stored record,
ordered by `updatedAt` descending as the handler's sort argument
`{ updatedAt: -1 }` asks, where each element carries the record's store
identifier under `id` and every other field of the record unchanged. -/
theorem C9_list_shape_and_order (st : Store) :
    (∃ k, getTodos = Handler.find { path := "updatedAt", direction := -1 } k ∧
      ∀ ds, k (.ok ds) = { status := 200, body := ResBody.todos (ds.map toJson) }) ∧
    ∃ ds, (getTodos.storeCalls = [StoreCall.find { path := "updatedAt", direction := -1 }] ∧
        st.find { path := "updatedAt", direction := -1 } = .ok ds) ∧
      getTodos.run st = ({ status := 200, body := ResBody.todos (ds.map toJson) }, st) ∧
      ds.Perm st.docs ∧
      (ds.map toJson).length = st.docs.length ∧
      ds.Pairwise (fun a b => tsLe b.updatedAt a.updatedAt) ∧
      (ds.map toJson).Pairwise (fun x y => tsLe y.updatedAt x.updatedAt) ∧
      ∀ d, (toJson d).id = d._id ∧ (toJson d).title = d.title ∧
        (toJson d).completed = d.completed ∧ (toJson d).updatedAt = d.updatedAt := by
  haveI : IsTotal Doc (Store.sortBefore { path := "updatedAt", direction := -1 }) :=
    ⟨fun a b => by
      rw [sortBefore_updatedAt_desc, sortBefore_updatedAt_desc]
      exact le_total (α := List Char) b.updatedAt.data a.updatedAt.data⟩
  haveI : IsTrans Doc (Store.sortBefore { path := "updatedAt", direction := -1 }) :=
    ⟨fun a b c h1 h2 => by
      rw [sortBefore_updatedAt_desc] at h1 h2 ⊢
      exact le_trans (α := List Char) h2 h1⟩
  have hsorted : (st.docs.insertionSort
      (Store.sortBefore { path := "updatedAt", direction := -1 })).Pairwise
      (fun a b => tsLe b.updatedAt a.updatedAt) :=
    (List.sorted_insertionSort _ st.docs).imp fun h => (sortBefore_updatedAt_desc _ _).1 h
  refine ⟨⟨_, rfl, fun _ => rfl⟩,
    st.docs.insertionSort (Store.sortBefore { path := "updatedAt", direction := -1 }),
    ⟨rfl, rfl⟩, rfl, List.perm_insertionSort _ _, ?_, hsorted, ?_,
    fun _ => ⟨rfl, rfl, rfl, rfl⟩⟩
  · simp [List.length_insertionSort]
  · rw [List.pairwise_map]
    exact hsorted

/-- Listing three records created with increasing timestamps reverses the
creation order. -/
theorem list_reverses_creation_order :
    (getTodos.run
      { docs := [{ _id := 0, title := "a", completed := false, updatedAt := "2024-01-01" },
                 { _id := 1, title := "b", completed := false, updatedAt := "2024-01-02" },
                 { _id := 2, title := "c", completed := false, updatedAt := "2024-01-03" }],
        nextId := 3 }).1 =
      { status := 200,
        body := ResBody.todos
          [{ id := 2, title := "c", completed := false, updatedAt := "2024-01-03" },
           { id := 1, title := "b", completed := false, updatedAt := "2024-01-02" },
           { id := 0, title := "a", completed := false, updatedAt := "2024-01-01" }] } := by
  decide

/-! ## The error contract -/

theorem serverError_isFailure : serverError.isFailure :=
  ⟨Or.inr (Or.inr rfl), "server_error", rfl, Or.inl rfl⟩

theorem notFound_isFailure :
    Response.isFailure { status := 404, body := ResBody.error "not found" } :=
  ⟨Or.inr (Or.inl rfl), "not found", rfl, Or.inr (Or.inr rfl)⟩

/-- C10, as stated, fails: a request whose body the JSON body parser rejects
never reaches a route handler; it is answered with the parser's status and
the HTML page of the default error handler: 400 for malformed JSON, which is
no body `{error: m}`, and 413 for an oversized body, which is no status of
the contract either. -/
theorem C10_counterexample :
    (app (Incoming.rejected Route.create 400) "2024-01-01T00:00:00.000Z").immediate =
      some { status := 400, body := ResBody.html } ∧
    ¬ (Response.isSuccess { status := 400, body := ResBody.html } ∨
        Response.isFailure { status := 400, body := ResBody.html }) ∧
    (app (Incoming.rejected Route.create 413) "2024-01-01T00:00:00.000Z").immediate =
      some { status := 413, body := ResBody.html } ∧
    ¬ (Response.isSuccess { status := 413, body := ResBody.html } ∨
        Response.isFailure { status := 413, body := ResBody.html }) := by
  refine ⟨rfl, ?_, rfl, ?_⟩
  · rintro (⟨h, _⟩ | ⟨_, m, h, _⟩)
    · simp at h
    · simp at h
  · rintro (⟨h, _⟩ | ⟨_, m, h, _⟩)
    · simp at h
    · simp at h

/-- C10, amended: for each of the four operations and every request whose
body the JSON body parser accepted, so that the route handler runs, a store
call that fails with any error is answered 500 `{error: "server_error"}`;
every response the handler can send is either a success, with status 200,
201 or 204 and no error object, or a failure with a status in {400, 404, 500}
and a body `{error: m}` with `m` one of "server_error", "title is required",
"not found". -/
theorem C10_uniform_error_contract (req : Request) (now : String) :
    serverError = { status := 500, body := ResBody.error "server_error" } ∧
    (∀ e, ((app (Incoming.parsed req) now).storeCalls = [] ∧
        (app (Incoming.parsed req) now).onStoreError e = none) ∨
      (app (Incoming.parsed req) now).onStoreError e = some serverError) ∧
    ∀ r, (app (Incoming.parsed req) now).canRespond r → r.isSuccess ∨ r.isFailure := by
  show _ ∧ (∀ e, ((req.handler now).storeCalls = [] ∧ (req.handler now).onStoreError e = none) ∨
      (req.handler now).onStoreError e = some serverError) ∧
    ∀ r, (req.handler now).canRespond r → r.isSuccess ∨ r.isFailure
  refine ⟨rfl, ?_, ?_⟩
  · intro e
    cases req with
    | list => exact Or.inr rfl
    | update id body => exact Or.inr rfl
    | delete id => exact Or.inr rfl
    | create body =>
      simp only [Request.handler, postTodo]
      split
      · exact Or.inl ⟨rfl, rfl⟩
      · split
        · exact Or.inr rfl
        · exact Or.inl ⟨rfl, rfl⟩
  · intro r hr
    cases req with
    | list =>
      obtain ⟨a, rfl⟩ := hr
      cases a with
      | error e => exact Or.inr serverError_isFailure
      | ok ds => exact Or.inl ⟨Or.inl rfl, fun m h => by cases h⟩
    | update id body =>
      obtain ⟨a, rfl⟩ := hr
      cases a with
      | error e => exact Or.inr serverError_isFailure
      | ok o =>
        cases o with
        | none => exact Or.inr notFound_isFailure
        | some d => exact Or.inl ⟨Or.inl rfl, fun m h => by cases h⟩
    | delete id =>
      obtain ⟨a, rfl⟩ := hr
      cases a with
      | error e => exact Or.inr serverError_isFailure
      | ok o =>
        cases o with
        | none => exact Or.inr notFound_isFailure
        | some d => exact Or.inl ⟨Or.inr (Or.inr rfl), fun m h => by cases h⟩
    | create body =>
      simp only [Request.handler, postTodo] at hr
      split at hr
      · simp only [Handler.canRespond] at hr
        subst hr
        exact Or.inr ⟨Or.inl rfl, "title is required", rfl, Or.inr (Or.inl rfl)⟩
      · split at hr
        · obtain ⟨a, rfl⟩ := hr
          cases a with
          | error e => exact Or.inr serverError_isFailure
          | ok d => exact Or.inl ⟨Or.inr (Or.inl rfl), fun m h => by cases h⟩
        · simp only [Handler.canRespond] at hr
          subst hr
          exact Or.inr serverError_isFailure

/-- C10 at a concrete input: the answer of an update to a store that found no
record is a failure of the contract. -/
theorem C10_uniform_error_contract_witness :
    Response.isSuccess { status := 404, body := ResBody.error "not found" } ∨
      Response.isFailure { status := 404, body := ResBody.error "not found" } :=
  (C10_uniform_error_contract (Request.update "000000000000000000000000" none)
    "2024-01-01T00:00:00.000Z").2.2 _ ⟨.ok none, rfl⟩

end TodoService
